import Mathlib

/-!
Verification development for the Cursor account manager (src/main.py).

The Python source is shallowly embedded: the SQLite `ItemTable` becomes an
association list of key/value strings, SQL statements become pure list
operations, `sqlite3` errors are modelled by an explicit failure oracle
(`fail : Nat → Bool` tells which numbered write statement raises), the
remote subscription endpoint becomes an oracle `String → Option SubData`,
and the saved-account directory becomes a list of (filename, parsed
content) pairs where `none` models a file whose `json.load` raises.
-/

/-! ## String helpers mirroring Python string primitives -/

/-- `listStartsWith needle hay` decides whether `needle` is a prefix of `hay`. -/
def listStartsWith : List Char → List Char → Bool
  | [], _ => true
  | _ :: _, [] => false
  | a :: as, b :: bs => (a == b) && listStartsWith as bs

/-- `listHasSub needle hay` decides whether `needle` occurs as a contiguous
sublist of `hay`; mirrors Python `needle in hay` on strings. -/
def listHasSub (needle : List Char) : List Char → Bool
  | [] => listStartsWith needle []
  | b :: bs => listStartsWith needle (b :: bs) || listHasSub needle bs

/-- Python `needle in hay` for strings. -/
def strHasSub (hay needle : String) : Bool :=
  listHasSub needle.data hay.data

/-- Python `s.endswith(t)`. -/
def strEndsWith (s t : String) : Bool :=
  listStartsWith t.data.reverse s.data.reverse

/-- Python `s.lower()` (ASCII case folding, the only case the program uses). -/
def pyLower (s : String) : String :=
  String.mk (s.data.map Char.toLower)

/-- Python `s.capitalize()`: first character upper-cased, the rest lower-cased. -/
def pyCapitalize (s : String) : String :=
  match s.data with
  | [] => ""
  | c :: rest => String.mk (c.toUpper :: rest.map Char.toLower)

/-- Python truthiness of an optional string (`None` and `""` are falsy). -/
def truthyStr : Option String → Bool
  | none => false
  | some s => if s = "" then false else true

/-- Python `a or b` on optional strings: `a` unless it is falsy. -/
def pyOrStr (a b : Option String) : Option String :=
  match a with
  | none => b
  | some s => if s = "" then b else some s

/-! ## The embedded key-value store (SQLite `ItemTable`) -/

/-- A snapshot of the `ItemTable` table: `key` is unique, `value` is text. -/
abbrev Store := List (String × String)

/-- `SELECT value FROM ItemTable WHERE key = ?` (unique-key lookup). -/
def lookupKV : Store → String → Option String
  | [], _ => none
  | e :: rest, k => if e.1 = k then some e.2 else lookupKV rest k

/-- `SELECT COUNT(*) FROM ItemTable WHERE key = ?` compared against 0. -/
def containsKey : Store → String → Bool
  | [], _ => false
  | e :: rest, k => if e.1 = k then true else containsKey rest k

/-- `UPDATE ItemTable SET value = ? WHERE key = ?`. -/
def updateKV : Store → String → String → Store
  | [], _, _ => []
  | e :: rest, k, v => if e.1 = k then (k, v) :: updateKV rest k v else e :: updateKV rest k v

/-- `INSERT INTO ItemTable (key, value) VALUES (?, ?)`. -/
def insertKV (s : Store) (k v : String) : Store :=
  s ++ [(k, v)]

/-- `DELETE FROM ItemTable WHERE key = ?`. -/
def deleteKV : Store → String → Store
  | [], _ => []
  | e :: rest, k => if e.1 = k then deleteKV rest k else e :: deleteKV rest k

/-- One loop iteration of the restore/manual-input flows: insert the entry if
the key is absent, else update it in place. -/
def upsertKV (s : Store) (e : String × String) : Store :=
  if containsKey s e.1 then updateKV s e.1 e.2 else insertKV s e.1 e.2

/-! ## `restore_selected_account` (src/main.py lines 904-942)

The per-key loop between `BEGIN TRANSACTION` and `COMMIT`.  `fail i = true`
models the i-th iteration's SQL statement raising; the exception handler
issues `ROLLBACK`, so the committed store is unchanged. -/

/-- The upsert loop of `restore_selected_account`: walks `raw_data.items()`,
returning `none` as soon as a statement raises (the transaction will be
rolled back), else the fully-updated pending store. -/
def restoreUpsertLoop (fail : Nat → Bool) : Nat → List (String × String) → Store → Option Store
  | _, [], s => some s
  | i, e :: rest, s =>
    if fail i then none else restoreUpsertLoop fail (i + 1) rest (upsertKV s e)

/-- `restore_selected_account`: `BEGIN`; upsert every `raw_data` entry;
`COMMIT` (which may itself fail, `commitFails`); on any failure `ROLLBACK`.
Returns the committed store and whether the transaction committed. -/
def restore_selected_account (fail : Nat → Bool) (commitFails : Bool)
    (raw_data : List (String × String)) (db : Store) : Store × Bool :=
  match restoreUpsertLoop fail 0 raw_data db with
  | some s => if commitFails then (db, false) else (s, true)
  | none => (db, false)

/-! ## `apply_manual_input` (src/main.py lines 1076-1124) -/

/-- The upsert loop of `apply_manual_input`; the source duplicates the loop
body of `restore_selected_account` verbatim, so this definition mirrors that
duplication. -/
def manualUpsertLoop (fail : Nat → Bool) : Nat → List (String × String) → Store → Option Store
  | _, [], s => some s
  | i, e :: rest, s =>
    if fail i then none else manualUpsertLoop fail (i + 1) rest (upsertKV s e)

/-- The four entries `apply_manual_input` writes. -/
def manualUpdates (email access_token refresh_token account_type : String) : List (String × String) :=
  [("cursorAuth/cachedEmail", email),
   ("cursorAuth/accessToken", access_token),
   ("cursorAuth/refreshToken", refresh_token),
   ("cursorAuth/cachedSignUpType", account_type)]

/-- `apply_manual_input`: validates the (already stripped) inputs — missing
email or tokens abort before the database is touched — then runs the same
`BEGIN` / per-key upsert / `COMMIT` / `ROLLBACK` protocol over its four
fixed entries. -/
def apply_manual_input (fail : Nat → Bool) (commitFails : Bool)
    (email access_token refresh_token account_type : String) (db : Store) : Store × Bool :=
  if email = "" then (db, false)
  else if access_token = "" || refresh_token = "" then (db, false)
  else
    match manualUpsertLoop fail 0 (manualUpdates email access_token refresh_token account_type) db with
    | some s => if commitFails then (db, false) else (s, true)
    | none => (db, false)

/-! ## `logout_current_account` (src/main.py lines 1165-1216) -/

/-- The fixed list of authentication keys removed by logout. -/
def auth_keys : List String :=
  ["cursorAuth/cachedEmail",
   "cursorAuth/refreshToken",
   "cursorAuth/accessToken",
   "cursorAuth/cachedSignUpType",
   "cursorAuth/stripeMembershipType"]

/-- The delete loop of `logout_current_account`, one `DELETE` per auth key
inside the transaction. -/
def deleteLoop (fail : Nat → Bool) : Nat → List String → Store → Option Store
  | _, [], s => some s
  | i, k :: rest, s =>
    if fail i then none else deleteLoop fail (i + 1) rest (deleteKV s k)

/-- `logout_current_account`: `BEGIN`; delete the five auth keys; `COMMIT`;
`ROLLBACK` on any failure. -/
def logout_current_account (fail : Nat → Bool) (commitFails : Bool) (db : Store) : Store × Bool :=
  match deleteLoop fail 0 auth_keys db with
  | some s => if commitFails then (db, false) else (s, true)
  | none => (db, false)

/-! ## `format_subscription_type` (src/main.py lines 248-298) -/

/-- The legacy nested `subscription` object: `plan.nickname` (absent plan or
nickname yields the Python default `"Unknown"`) and `status` (default
`"unknown"`). -/
structure LegacySub where
  nickname : Option String
  status : Option String
deriving DecidableEq

/-- The fields of the subscription API response the program inspects.
`otherKeys` records whether the response dictionary carries any further
keys, which only matters for Python dict truthiness. -/
structure SubData where
  membershipType : Option String
  subscriptionStatus : Option String
  subscription : Option LegacySub
  daysRemainingOnTrial : Option Int
  otherKeys : Bool
deriving DecidableEq

/-- Python truthiness of the response dictionary: truthy iff it has a key. -/
def SubData.pyTruthy (d : SubData) : Bool :=
  d.membershipType.isSome || d.subscriptionStatus.isSome || d.subscription.isSome ||
    d.daysRemainingOnTrial.isSome || d.otherKeys

/-- The legacy-format tail of `format_subscription_type` (lines 277-296):
substring matching on the plan nickname, with a case-sensitive comparison of
`status` against `"active"`. -/
def formatLegacySub (sub : LegacySub) : String :=
  let plan := sub.nickname.getD "Unknown"
  let status := sub.status.getD "unknown"
  if status = "active" then
    if strHasSub (pyLower plan) "pro" then "Pro"
    else if strHasSub (pyLower plan) "pro_trial" then "Pro Trial"
    else if strHasSub (pyLower plan) "free_trial" then "Free Trial"
    else if strHasSub (pyLower plan) "team" then "Team"
    else if strHasSub (pyLower plan) "enterprise" then "Enterprise"
    else plan
  else plan ++ " (" ++ status ++ ")"

/-- The legacy-compatibility section reached when the new-format branch does
not return: absent or falsy `subscription` yields `"Free"`. -/
def formatLegacyPart (d : SubData) : String :=
  match d.subscription with
  | some sub => formatLegacySub sub
  | none => "Free"

/-- `format_subscription_type`: `none` models a `None`/falsy argument.  The
new-format branch lower-cases both `membershipType` and
`subscriptionStatus`; when the status is empty it falls through to the
legacy section. -/
def format_subscription_type (sd : Option SubData) : String :=
  match sd with
  | none => "Free"
  | some d =>
    if d.pyTruthy = false then "Free"
    else
      match d.membershipType with
      | some mt0 =>
        let mt := pyLower mt0
        let st := pyLower (d.subscriptionStatus.getD "")
        if st = "active" then
          if mt = "pro" then "Pro"
          else if mt = "free_trial" then "Free Trial"
          else if mt = "pro_trial" then "Pro Trial"
          else if mt = "team" then "Team"
          else if mt = "enterprise" then "Enterprise"
          else if mt = "" then "Active Subscription"
          else pyCapitalize mt
        else if st = "" then formatLegacyPart d
        else pyCapitalize mt ++ " (" ++ st ++ ")"
      | none => formatLegacyPart d

/-! ## The token locator (src/main.py lines 72-181)

External state is passed in as already-decoded data: `storage` is the parsed
`storage.json` object (`none` when the file is missing or `json.load`
raises, both of which the source swallows), `db` is the row set returned by
`SELECT value FROM ItemTable WHERE key LIKE '%token%'` (`none` when the
database cannot be opened or the query raises), `jparse` is the `json.loads`
oracle restricted to what the source inspects (the parsed top-level object
when the text parses to a dictionary, else `none`), and `session` is the
listing of the session-storage directory (`none` when it is missing or
`os.listdir` raises), each file carrying its leniently-decoded text
(`none` when opening/reading it raises). -/

/-- A JSON leaf value as Python sees it: a string, or some non-string value
carrying only its Python truthiness. -/
inductive PyVal where
  | str : String → PyVal
  | other : Bool → PyVal
deriving DecidableEq

/-- Python truthiness of an optional `PyVal`. -/
def pyTruthyVal : Option PyVal → Bool
  | none => false
  | some (.str s) => if s = "" then false else true
  | some (.other b) => b

/-- `isinstance(v, str) and len(v) > 20`. -/
def isLongStr : PyVal → Bool
  | .str s => 20 < s.length
  | .other _ => false

/-- Python `dict` lookup on the embedded association list (keys unique). -/
def lookupAssoc : List (String × PyVal) → String → Option PyVal
  | [], _ => none
  | e :: rest, k => if e.1 = k then some e.2 else lookupAssoc rest k

/-- The key scan of `_get_token_from_storage`: first top-level key whose name
contains `"token"` (case-insensitively) with a string value longer than 20
characters. -/
def scanStorageKeys : List (String × PyVal) → Option PyVal
  | [] => none
  | (k, v) :: rest =>
    if strHasSub (pyLower k) "token" && isLongStr v then some v
    else scanStorageKeys rest

/-- `_get_token_from_storage`: the exact key `cursorAuth/accessToken` first,
else the token-named-key scan; any I/O or parse failure yields `none`. -/
def get_token_from_storage (storage : Option (List (String × PyVal))) : Option PyVal :=
  match storage with
  | none => none
  | some data =>
    match lookupAssoc data "cursorAuth/accessToken" with
    | some v => some v
    | none => scanStorageKeys data

/-- The row scan of `_get_token_from_sqlite`: a string value longer than 20
characters is returned directly; otherwise the value is parsed as JSON and a
`"token"` field of a resulting dictionary is returned; rows failing both
checks are skipped. -/
def scanSqliteRows (jparse : String → Option (List (String × PyVal))) : List PyVal → Option PyVal
  | [] => none
  | v :: rest =>
    match v with
    | .str s =>
      if 20 < s.length then some v
      else
        match jparse s with
        | some d =>
          match lookupAssoc d "token" with
          | some t => some t
          | none => scanSqliteRows jparse rest
        | none => scanSqliteRows jparse rest
    | .other _ => scanSqliteRows jparse rest

/-- `_get_token_from_sqlite` over the rows whose key matched `'%token%'`. -/
def get_token_from_sqlite (jparse : String → Option (List (String × PyVal)))
    (db : Option (List PyVal)) : Option PyVal :=
  match db with
  | none => none
  | some rows => scanSqliteRows jparse rows

/-- The characters of the literal pattern `"token":"`. -/
def tokenPat : List Char := "\"token\":\"".data

/-- Drops `needle` from the front of `hay` when it is a prefix. -/
def dropPrefixL : List Char → List Char → Option (List Char)
  | [], l => some l
  | _ :: _, [] => none
  | a :: as, b :: bs => if a = b then dropPrefixL as bs else none

/-- The maximal run of non-quote characters at the front of the list
(the greedy `[^"]+` capture). -/
def takeUntilQuote : List Char → List Char
  | [] => []
  | c :: rest => if c = '"' then [] else c :: takeUntilQuote rest

/-- Whether the regex `"token":"([^"]+)"` matches at the head of the text,
and the captured group when it does: the pattern, then a nonempty quote-free
run, then the closing quote. -/
def tokenMatchAt (l : List Char) : Option String :=
  match dropPrefixL tokenPat l with
  | none => none
  | some rest =>
    let tok := takeUntilQuote rest
    if tok.isEmpty then none
    else if tok.length < rest.length then some (String.mk tok)
    else none

/-- `re.search` for the token pattern: the leftmost position where the whole
pattern matches, scanning left to right. -/
def scanTokenText : List Char → Option String
  | [] => none
  | c :: rest =>
    match tokenMatchAt (c :: rest) with
    | some tok => some tok
    | none => scanTokenText rest

/-- A session-storage directory entry: filename and its leniently decoded
text (`none` when opening or reading the file raises, which is skipped). -/
structure LogFile where
  name : String
  content : Option String
deriving DecidableEq

/-- The file loop of `_get_token_from_session`: `.log` files in listing
order, first file whose decoded text matches the token pattern. -/
def scanLogFiles : List LogFile → Option PyVal
  | [] => none
  | f :: rest =>
    if strEndsWith f.name ".log" then
      match f.content with
      | some text =>
        match scanTokenText text.data with
        | some tok => some (.str tok)
        | none => scanLogFiles rest
      | none => scanLogFiles rest
    else scanLogFiles rest

/-- `_get_token_from_session`. -/
def get_token_from_session (session : Option (List LogFile)) : Option PyVal :=
  match session with
  | none => none
  | some files => scanLogFiles files

/-- `get_token_from_cursor_config`: the three strategies in order, returning
the first truthy result; a falsy result (including any swallowed failure)
moves on to the next strategy, and total exhaustion yields `none`. -/
def get_token_from_cursor_config (storage : Option (List (String × PyVal)))
    (jparse : String → Option (List (String × PyVal)))
    (db : Option (List PyVal)) (session : Option (List LogFile)) : Option PyVal :=
  let t1 := get_token_from_storage storage
  if pyTruthyVal t1 then t1
  else
    let t2 := get_token_from_sqlite jparse db
    if pyTruthyVal t2 then t2
    else
      let t3 := get_token_from_session session
      if pyTruthyVal t3 then t3
      else none

/-- The generic first-truthy-wins combinator over an ordered list of
strategy results (the shape the specification ascribes to the locator). -/
def firstPyTruthy : List (Option PyVal) → Option PyVal
  | [] => none
  | t :: rest => if pyTruthyVal t then t else firstPyTruthy rest

/-! ## Saved-account records and the bulk refresh worker
(src/main.py lines 681-710 and 722-841)

A durable record file is `(filename, Option Account)`: `none` models a file
whose `open`/`json.load` raises (the source logs and skips it, or runs its
per-record exception handler).  Record fields are optional because the
source reads every one with `dict.get` and a default. -/

/-- The `raw_data` block of a saved record: the two token-bearing keys the
refresh worker extracts. -/
structure RawData where
  accessToken : Option String
  refreshToken : Option String
deriving DecidableEq

/-- A parsed saved-account record. -/
structure Account where
  email : Option String
  account_type : Option String
  membership : Option String
  trial_status : Option String
  pro_trial_remaining : Option String
  saved_date : Option String
  raw_data : RawData
deriving DecidableEq

/-- A directory entry: filename and parsed content (`none` = parse failure). -/
abbrev FileEntry := String × Option Account

/-- A row of the saved-accounts table: email, account type, membership,
truncated saved date, and the failed flag. -/
abbrev TreeRow := String × String × String × String × Bool

/-- Builds a table row from a record, Python defaults applied
(`saved_date[:19]`). -/
def mkRow (a : Account) (membership : String) (failed : Bool) : TreeRow :=
  (a.email.getD "Unknown", a.account_type.getD "Unknown", membership,
   (a.saved_date.getD "Unknown").take 19, failed)

/-- `raw_data.get("cursorAuth/accessToken") or raw_data.get("cursorAuth/refreshToken")`. -/
def tokenOf (a : Account) : Option String :=
  pyOrStr a.raw_data.accessToken a.raw_data.refreshToken

/-- The membership/trial update applied when a truthy subscription response
arrives (lines 767-782), including the refresh-pass "Trial expired" label. -/
def updateAccount (a : Account) (d : SubData) : Account :=
  let a1 := { a with membership := some (format_subscription_type (some d)) }
  if strHasSub (pyLower (d.membershipType.getD "")) "trial" then
    match d.daysRemainingOnTrial with
    | some n =>
      if 0 < n then
        { a1 with trial_status := some ("Active - " ++ toString n ++ " days remaining"),
                  pro_trial_remaining := some (toString n ++ " days remaining") }
      else
        { a1 with trial_status := some "Trial expired", pro_trial_remaining := some "Expired" }
    | none =>
      { a1 with trial_status := some "Trial expired", pro_trial_remaining := some "Expired" }
  else
    { a1 with trial_status := some "Not on trial", pro_trial_remaining := some "Not applicable" }

/-- The worker's accumulated state: the `refreshed_accounts`,
`updated_tree_data` and `failed_accounts` lists, the `processed` counter,
the tokens sent to `get_stripe_profile` (instrumentation showing which
remote calls were made), the Python local `account_data` surviving from the
last successful parse, and the directory contents after the writes so far. -/
structure RefreshState where
  refreshed : List Account
  tree : List TreeRow
  failed : List Nat
  processed : Nat
  fetched : List String
  lastParsed : Option Account
  outFiles : List FileEntry
deriving DecidableEq

/-- The empty initial worker state. -/
def initialRefreshState : RefreshState :=
  ⟨[], [], [], 0, [], none, []⟩

/-- One iteration of the refresh loop over a single record file, mirroring
lines 736-829: a parse failure runs the exception handler (which reuses the
still-bound `account_data` of a previous iteration when one exists); a
missing token marks "No Token Found" and skips the remote call; a `None`
profile marks "API Error - Auth Failed"; otherwise the record is updated
(when the response dictionary is truthy) and rewritten to its file. -/
def refreshStep (fetch : String → Option SubData) (st : RefreshState) (f : FileEntry) : RefreshState :=
  match f.2 with
  | none =>
    match st.lastParsed with
    | some a =>
      { st with
        refreshed := st.refreshed ++ [a]
        failed := st.failed ++ [st.tree.length]
        tree := st.tree ++ [mkRow a (a.membership.getD "Refresh failed") true]
        outFiles := st.outFiles ++ [f] }
    | none => { st with outFiles := st.outFiles ++ [f] }
  | some a =>
    if truthyStr (tokenOf a) then
      let t := (tokenOf a).getD ""
      match fetch t with
      | none =>
        let a1 := { a with membership := some "API Error - Auth Failed" }
        { st with
          fetched := st.fetched ++ [t]
          refreshed := st.refreshed ++ [a1]
          failed := st.failed ++ [st.tree.length]
          tree := st.tree ++ [mkRow a "API Error - Auth Failed" true]
          lastParsed := some a1
          outFiles := st.outFiles ++ [f] }
      | some d =>
        let a1 := if d.pyTruthy then updateAccount a d else a
        { st with
          fetched := st.fetched ++ [t]
          refreshed := st.refreshed ++ [a1]
          tree := st.tree ++ [mkRow a1 (a1.membership.getD "Unknown") false]
          processed := st.processed + 1
          lastParsed := some a1
          outFiles := st.outFiles ++ [(f.1, some a1)] }
    else
      let a1 := { a with membership := some "No Token Found" }
      { st with
        refreshed := st.refreshed ++ [a1]
        failed := st.failed ++ [st.tree.length]
        tree := st.tree ++ [mkRow a "No Token Found" true]
        lastParsed := some a1
        outFiles := st.outFiles ++ [f] }

/-- The report returned by a completed bulk refresh, plus the directory
contents after the in-place rewrites. -/
structure RefreshReport where
  accounts : List Account
  tree_data : List TreeRow
  failed_accounts : List Nat
  total : Nat
  processed : Nat
  fetched : List String
  files_after : List FileEntry
deriving DecidableEq

/-- `_refresh_saved_accounts_worker`: filters the directory to `.json`
files, errors when there are none, else folds the per-record loop over them
in listing order. -/
def refresh_saved_accounts_worker (fetch : String → Option SubData)
    (files : List FileEntry) : Except String RefreshReport :=
  let jsonFiles := files.filter (fun f => strEndsWith f.1 ".json")
  if jsonFiles.isEmpty then .error "No saved accounts found"
  else
    let st := jsonFiles.foldl (refreshStep fetch) initialRefreshState
    .ok ⟨st.refreshed, st.tree, st.failed, jsonFiles.length, st.processed, st.fetched, st.outFiles⟩

/-- The loop of `load_saved_accounts` over the `.json` files: parsed records
are appended to the account list and the table (tagged normal); a parse
failure logs a warning naming the file and skips it. -/
def loadLoop : List FileEntry → List Account × List TreeRow × List String
  | [] => ([], [], [])
  | f :: rest =>
    let r := loadLoop rest
    match f.2 with
    | some a => (a :: r.1, mkRow a (a.membership.getD "Unknown") false :: r.2.1, r.2.2)
    | none => (r.1, r.2.1, f.1 :: r.2.2)

/-- `load_saved_accounts` (lines 681-710): accounts, table rows, and the
warnings logged for malformed files. -/
def load_saved_accounts (files : List FileEntry) : List Account × List TreeRow × List String :=
  loadLoop (files.filter (fun f => strEndsWith f.1 ".json"))

/-! ### Per-file derived forms used to state theorems about the worker -/

/-- Placeholder record for the (never used) corrupt case of the per-file
derived forms below. -/
def defaultAccount : Account :=
  ⟨none, none, none, none, none, none, ⟨none, none⟩⟩

/-- The record as it stands in memory after its iteration (only meaningful
for parseable files). -/
def accOf (fetch : String → Option SubData) (f : FileEntry) : Account :=
  match f.2 with
  | none => defaultAccount
  | some a =>
    if truthyStr (tokenOf a) then
      match fetch ((tokenOf a).getD "") with
      | none => { a with membership := some "API Error - Auth Failed" }
      | some d => if d.pyTruthy then updateAccount a d else a
    else { a with membership := some "No Token Found" }

/-- The table row produced for a parseable file. -/
def rowOf (fetch : String → Option SubData) (f : FileEntry) : TreeRow :=
  match f.2 with
  | none => mkRow defaultAccount "" true
  | some a =>
    if truthyStr (tokenOf a) then
      match fetch ((tokenOf a).getD "") with
      | none => mkRow a "API Error - Auth Failed" true
      | some d =>
        let a1 := if d.pyTruthy then updateAccount a d else a
        mkRow a1 (a1.membership.getD "Unknown") false
    else mkRow a "No Token Found" true

/-- The file's directory entry after the iteration (rewritten only on a
successful fetch). -/
def newFileOf (fetch : String → Option SubData) (f : FileEntry) : FileEntry :=
  match f.2 with
  | none => f
  | some a =>
    if truthyStr (tokenOf a) then
      match fetch ((tokenOf a).getD "") with
      | none => f
      | some d => (f.1, some (if d.pyTruthy then updateAccount a d else a))
    else f

/-- The token the iteration sends to the remote endpoint, when it makes the
call at all. -/
def fetchTokOf (f : FileEntry) : Option String :=
  match f.2 with
  | none => none
  | some a => if truthyStr (tokenOf a) then some ((tokenOf a).getD "") else none

/-- Whether a parseable file's iteration lands in the failed set
(no token, or the remote call returned `None`). -/
def isFailF (fetch : String → Option SubData) (f : FileEntry) : Bool :=
  match f.2 with
  | none => false
  | some a =>
    if truthyStr (tokenOf a) then
      match fetch ((tokenOf a).getD "") with
      | none => true
      | some _ => false
    else true

/-- Whether a parseable file's iteration increments `processed`. -/
def isSuccF (fetch : String → Option SubData) (f : FileEntry) : Bool :=
  match f.2 with
  | none => false
  | some a =>
    if truthyStr (tokenOf a) then
      match fetch ((tokenOf a).getD "") with
      | none => false
      | some _ => true
    else false

/-- A parseable record with no extractable token. -/
def noTokF (f : FileEntry) : Bool :=
  match f.2 with
  | none => false
  | some a => !(truthyStr (tokenOf a))

/-- The failed-set indices contributed by a run of parseable files starting
at table position `k`. -/
def failedIdxFrom (fetch : String → Option SubData) (k : Nat) : List FileEntry → List Nat
  | [] => []
  | f :: rest =>
    (if isFailF fetch f then [k] else []) ++ failedIdxFrom fetch (k + 1) rest

/-! ## Theorems -/

theorem manualUpsertLoop_eq_restoreUpsertLoop (fail : Nat → Bool) :
    ∀ (entries : List (String × String)) (i : Nat) (db : Store),
      manualUpsertLoop fail i entries db = restoreUpsertLoop fail i entries db := by
  intro entries
  induction entries with
  | nil => intro i db; rfl
  | cons e rest ih =>
    intro i db
    simp only [manualUpsertLoop, restoreUpsertLoop]
    by_cases h : fail i = true
    · simp [h]
    · simp only [Bool.not_eq_true] at h
      simp [h, ih]

theorem restoreUpsertLoop_some (fail : Nat → Bool) :
    ∀ (entries : List (String × String)) (i : Nat) (db s : Store),
      restoreUpsertLoop fail i entries db = some s → s = entries.foldl upsertKV db := by
  intro entries
  induction entries with
  | nil =>
    intro i db s h
    simp only [restoreUpsertLoop, Option.some.injEq] at h
    simp [List.foldl, h.symm]
  | cons e rest ih =>
    intro i db s h
    simp only [restoreUpsertLoop] at h
    by_cases hf : fail i = true
    · simp [hf] at h
    · simp only [Bool.not_eq_true] at hf
      simp only [hf, Bool.false_eq_true, if_false] at h
      simpa [List.foldl] using ih (i + 1) (upsertKV db e) s h

theorem deleteLoop_some (fail : Nat → Bool) :
    ∀ (keys : List String) (i : Nat) (db s : Store),
      deleteLoop fail i keys db = some s → s = keys.foldl deleteKV db := by
  intro keys
  induction keys with
  | nil =>
    intro i db s h
    simp only [deleteLoop, Option.some.injEq] at h
    simp [List.foldl, h.symm]
  | cons k rest ih =>
    intro i db s h
    simp only [deleteLoop] at h
    by_cases hf : fail i = true
    · simp [hf] at h
    · simp only [Bool.not_eq_true] at hf
      simp only [hf, Bool.false_eq_true, if_false] at h
      simpa [List.foldl] using ih (i + 1) (deleteKV db k) s h

theorem lookupKV_deleteKV_ne (k k' : String) (h : ¬ k = k') :
    ∀ s : Store, lookupKV (deleteKV s k') k = lookupKV s k := by
  intro s
  induction s with
  | nil => rfl
  | cons e rest ih =>
    simp only [deleteKV]
    by_cases he : e.1 = k'
    · have h1 : ¬ e.1 = k := by
        intro hk; exact h (hk ▸ he)
      have h2 : ¬ k' = k := fun x => h x.symm
      simp [he, lookupKV, h1, h2, ih]
    · by_cases hk : e.1 = k
      · simp [he, lookupKV, hk, h]
      · simp [he, lookupKV, hk, ih]

theorem lookupKV_deleteKV_self (k : String) :
    ∀ s : Store, lookupKV (deleteKV s k) k = none := by
  intro s
  induction s with
  | nil => rfl
  | cons e rest ih =>
    simp only [deleteKV]
    by_cases he : e.1 = k
    · simp [he, ih]
    · simp [he, lookupKV, ih]

theorem lookupKV_foldl_deleteKV_ne (k : String) :
    ∀ (keys : List String) (db : Store), k ∉ keys →
      lookupKV (keys.foldl deleteKV db) k = lookupKV db k := by
  intro keys
  induction keys with
  | nil => intro db _; rfl
  | cons k' rest ih =>
    intro db h
    have h1 : ¬ k = k' := fun he => h (he ▸ List.mem_cons_self k' rest)
    have h2 : k ∉ rest := fun hm => h (List.mem_cons_of_mem k' hm)
    simp only [List.foldl]
    rw [ih (deleteKV db k') h2, lookupKV_deleteKV_ne k k' h1]

theorem lookupKV_foldl_deleteKV_none (k : String) :
    ∀ (keys : List String) (db : Store), lookupKV db k = none →
      lookupKV (keys.foldl deleteKV db) k = none := by
  intro keys
  induction keys with
  | nil => intro db h; exact h
  | cons k' rest ih =>
    intro db h
    simp only [List.foldl]
    apply ih
    by_cases he : k = k'
    · exact he ▸ lookupKV_deleteKV_self k db
    · rw [lookupKV_deleteKV_ne k k' he, h]

theorem lookupKV_foldl_deleteKV_mem (k : String) :
    ∀ (keys : List String) (db : Store), k ∈ keys →
      lookupKV (keys.foldl deleteKV db) k = none := by
  intro keys
  induction keys with
  | nil => intro db h; cases h
  | cons k' rest ih =>
    intro db h
    simp only [List.foldl]
    rcases List.mem_cons.mp h with he | hm
    · exact lookupKV_foldl_deleteKV_none k rest (deleteKV db k') (he ▸ lookupKV_deleteKV_self k db)
    · exact ih (deleteKV db k') hm

/-- C1: every multi-key credential write is atomic.  For any failure pattern
and any entry sequence, the restore flow either commits with every entry
upserted (insert-if-absent-else-update, folded left over the entries) or
reports failure with the store exactly as before; the manual-input flow
satisfies the same atomicity and, on validated inputs, is literally the
restore flow's transactional upsert applied to its four fixed entries. -/
theorem restore_and_manual_upserts_atomic :
    ∀ (fail : Nat → Bool) (commitFails : Bool) (raw_data : List (String × String)) (db : Store),
      (((restore_selected_account fail commitFails raw_data db).2 = true →
          (restore_selected_account fail commitFails raw_data db).1 = raw_data.foldl upsertKV db)
        ∧ ((restore_selected_account fail commitFails raw_data db).2 = false →
          (restore_selected_account fail commitFails raw_data db).1 = db))
      ∧ (∀ email access_token refresh_token account_type : String,
          ((apply_manual_input fail commitFails email access_token refresh_token account_type db).2 = true →
            (apply_manual_input fail commitFails email access_token refresh_token account_type db).1
              = (manualUpdates email access_token refresh_token account_type).foldl upsertKV db)
          ∧ ((apply_manual_input fail commitFails email access_token refresh_token account_type db).2 = false →
            (apply_manual_input fail commitFails email access_token refresh_token account_type db).1 = db))
      ∧ (∀ email access_token refresh_token account_type : String,
          ¬ email = "" → ¬ access_token = "" → ¬ refresh_token = "" →
          apply_manual_input fail commitFails email access_token refresh_token account_type db
            = restore_selected_account fail commitFails
                (manualUpdates email access_token refresh_token account_type) db) := by
  intro fail commitFails raw_data db
  have hrestore : ∀ (entries : List (String × String)),
      ((restore_selected_account fail commitFails entries db).2 = true →
        (restore_selected_account fail commitFails entries db).1 = entries.foldl upsertKV db)
      ∧ ((restore_selected_account fail commitFails entries db).2 = false →
        (restore_selected_account fail commitFails entries db).1 = db) := by
    intro entries
    unfold restore_selected_account
    rcases h : restoreUpsertLoop fail 0 entries db with _ | s
    · simp
    · have hs := restoreUpsertLoop_some fail entries 0 db s h
      by_cases hc : commitFails = true
      · simp [hc]
      · simp only [Bool.not_eq_true] at hc
        simp [hc, hs]
  have hmanual : ∀ email access_token refresh_token account_type : String,
      ¬ email = "" → ¬ access_token = "" → ¬ refresh_token = "" →
      apply_manual_input fail commitFails email access_token refresh_token account_type db
        = restore_selected_account fail commitFails
            (manualUpdates email access_token refresh_token account_type) db := by
    intro email access_token refresh_token account_type he ha hr
    unfold apply_manual_input restore_selected_account
    simp [he, ha, hr, manualUpsertLoop_eq_restoreUpsertLoop]
  refine ⟨hrestore raw_data, ?_, hmanual⟩
  intro email access_token refresh_token account_type
  by_cases he : email = ""
  · unfold apply_manual_input
    simp [he]
  · by_cases ha : access_token = ""
    · unfold apply_manual_input
      simp [he, ha]
    · by_cases hr : refresh_token = ""
      · unfold apply_manual_input
        simp [he, ha, hr]
      · rw [hmanual email access_token refresh_token account_type he ha hr]
        exact hrestore (manualUpdates email access_token refresh_token account_type)

/-- Witness for C1 at concrete inputs: a clean run of the manual flow equals
the restore flow on the four entries, and a run whose second statement fails
leaves the store untouched. -/
theorem restore_and_manual_upserts_atomic_w :
    apply_manual_input (fun _ => false) false "e@x" "tokA" "tokR" "Auth_0" [("other", "v")]
      = restore_selected_account (fun _ => false) false (manualUpdates "e@x" "tokA" "tokR" "Auth_0") [("other", "v")]
    ∧ (restore_selected_account (fun i => i == 1) false [("a", "1"), ("b", "2")] [("other", "v")]).1
      = [("other", "v")] := by
  constructor
  · exact (restore_and_manual_upserts_atomic (fun _ => false) false [] [("other", "v")]).2.2
      "e@x" "tokA" "tokR" "Auth_0" (by decide) (by decide) (by decide)
  · exact ((restore_and_manual_upserts_atomic (fun i => i == 1) false [("a", "1"), ("b", "2")]
      [("other", "v")]).1).2 (by decide)

/-- C5: logout deletes exactly the five recognized auth keys.  For every
store, failure pattern and key: a key outside the auth set keeps its exact
value (whether the transaction commits or rolls back), and when the
transaction commits every auth key is absent afterwards. -/
theorem logout_erases_exactly_auth_keys :
    ∀ (fail : Nat → Bool) (commitFails : Bool) (db : Store) (k : String),
      (k ∉ auth_keys →
        lookupKV (logout_current_account fail commitFails db).1 k = lookupKV db k)
      ∧ ((logout_current_account fail commitFails db).2 = true → k ∈ auth_keys →
        lookupKV (logout_current_account fail commitFails db).1 k = none) := by
  intro fail commitFails db k
  unfold logout_current_account
  rcases h : deleteLoop fail 0 auth_keys db with _ | s
  · simp
  · have hs := deleteLoop_some fail auth_keys 0 db s h
    by_cases hc : commitFails = true
    · simp [hc]
    · simp only [Bool.not_eq_true] at hc
      simp only [hc, Bool.false_eq_true, if_false]
      constructor
      · intro hk
        simpa [hs] using lookupKV_foldl_deleteKV_ne k auth_keys db hk
      · intro _ hk
        simpa [hs] using lookupKV_foldl_deleteKV_mem k auth_keys db hk

/-- Witness for C5 at a concrete store: the unrelated key keeps its value
and the access-token key is gone. -/
theorem logout_erases_exactly_auth_keys_w :
    lookupKV (logout_current_account (fun _ => false) false
        [("other", "v"), ("cursorAuth/accessToken", "t")]).1 "other" = some "v"
    ∧ lookupKV (logout_current_account (fun _ => false) false
        [("other", "v"), ("cursorAuth/accessToken", "t")]).1 "cursorAuth/accessToken" = none := by
  constructor
  · exact (logout_erases_exactly_auth_keys (fun _ => false) false
      [("other", "v"), ("cursorAuth/accessToken", "t")] "other").1 (by decide)
  · exact (logout_erases_exactly_auth_keys (fun _ => false) false
      [("other", "v"), ("cursorAuth/accessToken", "t")] "cursorAuth/accessToken").2 (by decide) (by decide)

/-- C6: the four normalization examples of `format_subscription_type`:
active pro → "Pro", active pro_trial → "Pro Trial", the empty response →
"Free", and team with status past_due → "Team (past_due)". -/
theorem format_subscription_type_examples :
    format_subscription_type (some ⟨some "pro", some "active", none, none, false⟩) = "Pro"
    ∧ format_subscription_type (some ⟨some "pro_trial", some "active", none, none, false⟩) = "Pro Trial"
    ∧ format_subscription_type (some ⟨none, none, none, none, false⟩) = "Free"
    ∧ format_subscription_type (some ⟨some "team", some "past_due", none, none, false⟩) = "Team (past_due)" := by
  refine ⟨?_, ?_, ?_, ?_⟩ <;> decide

theorem listStartsWith_append_left :
    ∀ (xs ys l : List Char), listStartsWith (xs ++ ys) l = true → listStartsWith xs l = true := by
  intro xs
  induction xs with
  | nil => intro ys l _; rfl
  | cons a as ih =>
    intro ys l h
    cases l with
    | nil => simp [listStartsWith] at h
    | cons b bs =>
      simp only [List.cons_append, listStartsWith, Bool.and_eq_true] at h ⊢
      exact ⟨h.1, ih ys bs h.2⟩

theorem listHasSub_append_left :
    ∀ (l xs ys : List Char), listHasSub (xs ++ ys) l = true → listHasSub xs l = true := by
  intro l
  induction l with
  | nil =>
    intro xs ys h
    simp only [listHasSub] at h ⊢
    exact listStartsWith_append_left xs ys [] h
  | cons b bs ih =>
    intro xs ys h
    simp only [listHasSub, Bool.or_eq_true] at h ⊢
    rcases h with h | h
    · exact Or.inl (listStartsWith_append_left xs ys (b :: bs) h)
    · exact Or.inr (ih xs ys h)

theorem strHasSub_pro_of_pro_trial (s : String) :
    strHasSub s "pro_trial" = true → strHasSub s "pro" = true := by
  intro h
  have hsplit : ("pro_trial" : String).data = ("pro" : String).data ++ ("_trial" : String).data := by
    decide
  unfold strHasSub at h ⊢
  rw [hsplit] at h
  exact listHasSub_append_left s.data ("pro" : String).data ("_trial" : String).data h

theorem strData_append (a b : String) : (a ++ b).data = a.data ++ b.data := by
  cases a
  cases b
  rfl

theorem getLastQ_append_singleton (l : List Char) (c : Char) :
    (l ++ [c]).getLast? = some c := by
  induction l with
  | nil => rfl
  | cons x xs ih =>
    cases h : xs ++ [c] with
    | nil => exact absurd h (by simp)
    | cons y ys =>
      simp only [List.cons_append, List.getLast?, h] at ih ⊢
      exact ih

theorem append_paren_ne_pro_trial (a b : String) :
    ¬ (a ++ " (" ++ b ++ ")") = "Pro Trial" := by
  intro h
  have hd : ((a ++ " (" ++ b ++ ")").data).getLast? = (("Pro Trial" : String).data).getLast? :=
    congrArg (fun s => s.data.getLast?) h
  rw [strData_append] at hd
  have h1 : (")" : String).data = [')'] := rfl
  rw [h1, getLastQ_append_singleton] at hd
  have h2 : (("Pro Trial" : String).data).getLast? = some 'l' := by decide
  rw [h2] at hd
  cases hd

/-- C10: in the legacy branch, any active-status response whose plan
nickname contains "pro" (case-insensitively) — in particular any nickname
containing "pro_trial" — formats as "Pro"; consequently the legacy branch
can never produce "Pro Trial", for any input whatsoever. -/
theorem legacy_pro_shadows_pro_trial :
    (∀ nickname : String, strHasSub (pyLower nickname) "pro" = true →
      formatLegacySub ⟨some nickname, some "active"⟩ = "Pro")
    ∧ (∀ nickname : String, strHasSub (pyLower nickname) "pro_trial" = true →
      formatLegacySub ⟨some nickname, some "active"⟩ = "Pro")
    ∧ (∀ sub : LegacySub, ¬ formatLegacySub sub = "Pro Trial") := by
  refine ⟨?_, ?_, ?_⟩
  · intro nickname h
    simp [formatLegacySub, h]
  · intro nickname h
    simp [formatLegacySub, strHasSub_pro_of_pro_trial (pyLower nickname) h]
  · intro sub h
    unfold formatLegacySub at h
    by_cases hst : sub.status.getD "unknown" = "active"
    · simp only [hst, if_true] at h
      by_cases h1 : strHasSub (pyLower (sub.nickname.getD "Unknown")) "pro" = true
      · simp [h1] at h
      · simp only [Bool.not_eq_true] at h1
        have h2 : strHasSub (pyLower (sub.nickname.getD "Unknown")) "pro_trial" = false := by
          cases h2 : strHasSub (pyLower (sub.nickname.getD "Unknown")) "pro_trial" with
          | false => rfl
          | true =>
            rw [strHasSub_pro_of_pro_trial (pyLower (sub.nickname.getD "Unknown")) h2] at h1
            cases h1
        simp only [h1, h2, Bool.false_eq_true, if_false] at h
        by_cases h3 : strHasSub (pyLower (sub.nickname.getD "Unknown")) "free_trial" = true
        · simp [h3] at h
        · simp only [Bool.not_eq_true] at h3
          simp only [h3, Bool.false_eq_true, if_false] at h
          by_cases h4 : strHasSub (pyLower (sub.nickname.getD "Unknown")) "team" = true
          · simp [h4] at h
          · simp only [Bool.not_eq_true] at h4
            simp only [h4, Bool.false_eq_true, if_false] at h
            by_cases h5 : strHasSub (pyLower (sub.nickname.getD "Unknown")) "enterprise" = true
            · simp [h5] at h
            · simp only [Bool.not_eq_true] at h5
              simp only [h5, Bool.false_eq_true, if_false] at h
              rw [h] at h1
              have : strHasSub (pyLower "Pro Trial") "pro" = true := by decide
              rw [this] at h1
              cases h1
    · simp only [hst, if_false] at h
      exact append_paren_ne_pro_trial (sub.nickname.getD "Unknown") (sub.status.getD "unknown") h

/-- Witness for C10: a nickname containing "pro_trial" formats as "Pro". -/
theorem legacy_pro_shadows_pro_trial_w :
    formatLegacySub ⟨some "pro_trial plan", some "active"⟩ = "Pro" :=
  legacy_pro_shadows_pro_trial.2.1 "pro_trial plan" (by decide)

/-- Counterexample for C4: the legacy branch compares the status
case-sensitively, so a legacy response with status "Active" and a "pro"
nickname does not report "Pro" — it reports the non-active form
"pro (Active)". -/
theorem legacy_active_check_counterexample :
    ¬ format_subscription_type (some ⟨none, none, some ⟨some "pro", some "Active"⟩, none, false⟩) = "Pro"
    ∧ format_subscription_type (some ⟨none, none, some ⟨some "pro", some "Active"⟩, none, false⟩)
        = "pro (Active)" := by
  decide

/-- C4 (amended): the direct membership-type branch compares the status
case-insensitively (status "Active" with membership "pro" reports "Pro"),
but the legacy nested plan/status branch compares the status to "active"
case-sensitively: any other status string — including "Active" — yields the
"{plan} ({status})" non-active form regardless of the plan nickname. -/
theorem legacy_active_check_case_sensitive :
    (∀ plan status : String, ¬ status = "active" →
      formatLegacySub ⟨some plan, some status⟩ = plan ++ " (" ++ status ++ ")")
    ∧ format_subscription_type (some ⟨some "pro", some "Active", none, none, false⟩) = "Pro" := by
  constructor
  · intro plan status h
    simp [formatLegacySub, h]
  · decide

/-- Witness for C4's amended claim: status "Active" with a "pro" nickname
takes the non-active legacy form. -/
theorem legacy_active_check_case_sensitive_w :
    formatLegacySub ⟨some "pro", some "Active"⟩ = "pro" ++ " (" ++ "Active" ++ ")" :=
  legacy_active_check_case_sensitive.1 "pro" "Active" (by decide)

/-- C3: the token locator is the first-truthy-wins chain over exactly the
three strategies in order (structured config, key-value store, session-log
scan), and when the structured config holds a non-empty token under the
exact key, that token is returned whatever the other two sources hold. -/
theorem token_locator_strict_order :
    ∀ (storage : Option (List (String × PyVal))) (jparse : String → Option (List (String × PyVal)))
      (db : Option (List PyVal)) (session : Option (List LogFile)),
      get_token_from_cursor_config storage jparse db session
        = firstPyTruthy [get_token_from_storage storage, get_token_from_sqlite jparse db,
            get_token_from_session session]
      ∧ (∀ (data : List (String × PyVal)) (t : String),
          storage = some data → lookupAssoc data "cursorAuth/accessToken" = some (.str t) →
          ¬ t = "" →
          get_token_from_cursor_config storage jparse db session = some (.str t)) := by
  intro storage jparse db session
  constructor
  · simp [get_token_from_cursor_config, firstPyTruthy]
  · intro data t hs hl ht
    subst hs
    have h1 : get_token_from_storage (some data) = some (.str t) := by
      simp [get_token_from_storage, hl]
    simp [get_token_from_cursor_config, h1, pyTruthyVal, ht]

/-- Witness for C3: the config token wins over a long database token. -/
theorem token_locator_strict_order_w :
    get_token_from_cursor_config (some [("cursorAuth/accessToken", .str "CFGTOKEN")])
      (fun _ => none) (some [.str "DBTOKEN_0123456789_0123456789"]) none
      = some (.str "CFGTOKEN") :=
  (token_locator_strict_order (some [("cursorAuth/accessToken", .str "CFGTOKEN")])
    (fun _ => none) (some [.str "DBTOKEN_0123456789_0123456789"]) none).2
    [("cursorAuth/accessToken", .str "CFGTOKEN")] "CFGTOKEN" rfl (by decide) (by decide)

/-- C8: failures inside any single strategy are swallowed locally — a
strategy that yields nothing behaves exactly as an absent source and the
chain proceeds to the next — and when all three sources are absent, empty
or unparseable the locator returns the empty result (it is a total
function, so it cannot raise). -/
theorem token_locator_total_exhaustion :
    ∀ (storage : Option (List (String × PyVal))) (jparse : String → Option (List (String × PyVal)))
      (db : Option (List PyVal)) (session : Option (List LogFile)),
      ((storage = none ∨ storage = some []) → (db = none ∨ db = some []) →
        (session = none ∨ session = some []) →
        get_token_from_cursor_config storage jparse db session = none)
      ∧ (get_token_from_storage storage = none →
          get_token_from_cursor_config storage jparse db session
            = get_token_from_cursor_config none jparse db session)
      ∧ (get_token_from_sqlite jparse db = none →
          get_token_from_cursor_config storage jparse db session
            = get_token_from_cursor_config storage jparse none session)
      ∧ (get_token_from_session session = none →
          get_token_from_cursor_config storage jparse db session
            = get_token_from_cursor_config storage jparse db none) := by
  intro storage jparse db session
  refine ⟨?_, ?_, ?_, ?_⟩
  · intro h1 h2 h3
    have e1 : get_token_from_storage storage = none := by
      rcases h1 with h | h <;> subst h <;> simp [get_token_from_storage, lookupAssoc, scanStorageKeys]
    have e2 : get_token_from_sqlite jparse db = none := by
      rcases h2 with h | h <;> subst h <;> simp [get_token_from_sqlite, scanSqliteRows]
    have e3 : get_token_from_session session = none := by
      rcases h3 with h | h <;> subst h <;> simp [get_token_from_session, scanLogFiles]
    simp [get_token_from_cursor_config, e1, e2, e3, pyTruthyVal]
  · intro h
    show (if pyTruthyVal (get_token_from_storage storage) then get_token_from_storage storage
      else _) = _
    rw [h]
    rfl
  · intro h
    show (if pyTruthyVal (get_token_from_storage storage) then get_token_from_storage storage
        else if pyTruthyVal (get_token_from_sqlite jparse db) then get_token_from_sqlite jparse db
        else _)
      = (if pyTruthyVal (get_token_from_storage storage) then get_token_from_storage storage
        else if pyTruthyVal (get_token_from_sqlite jparse none) then get_token_from_sqlite jparse none
        else _)
    rw [h]
    rfl
  · intro h
    show (if pyTruthyVal (get_token_from_storage storage) then get_token_from_storage storage
        else if pyTruthyVal (get_token_from_sqlite jparse db) then get_token_from_sqlite jparse db
        else if pyTruthyVal (get_token_from_session session) then get_token_from_session session
        else none)
      = (if pyTruthyVal (get_token_from_storage storage) then get_token_from_storage storage
        else if pyTruthyVal (get_token_from_sqlite jparse db) then get_token_from_sqlite jparse db
        else if pyTruthyVal (get_token_from_session none) then get_token_from_session none
        else none)
    rw [h]
    rfl

/-- Witness for C8: an absent config file, an empty row set and an empty
session directory yield the empty result. -/
theorem token_locator_total_exhaustion_w :
    get_token_from_cursor_config none (fun _ => none) (some []) (some []) = none :=
  (token_locator_total_exhaustion none (fun _ => none) (some []) (some [])).1
    (Or.inl rfl) (Or.inr rfl) (Or.inr rfl)

theorem refreshStep_tree_length_parseable (fetch : String → Option SubData)
    (st : RefreshState) (f : FileEntry) (a : Account) (ha : f.2 = some a) :
    (refreshStep fetch st f).tree.length = st.tree.length + 1 := by
  by_cases hb : truthyStr (tokenOf a) = true
  · cases hc : fetch ((tokenOf a).getD "") with
    | none => simp [refreshStep, ha, hb, hc]
    | some d => simp [refreshStep, ha, hb, hc]
  · have hb' : truthyStr (tokenOf a) = false := by simpa using hb
    simp [refreshStep, ha, hb']

theorem foldl_refreshStep_refreshed (fetch : String → Option SubData) :
    ∀ (files : List FileEntry), (∀ f ∈ files, f.2.isSome = true) → ∀ (st : RefreshState),
      (files.foldl (refreshStep fetch) st).refreshed = st.refreshed ++ files.map (accOf fetch) := by
  intro files
  induction files with
  | nil => intro _ st; simp
  | cons f rest ih =>
    intro h st
    rcases Option.isSome_iff_exists.mp (h f (List.mem_cons_self f rest)) with ⟨a, ha⟩
    have hrest : ∀ g ∈ rest, g.2.isSome = true := fun g hg => h g (List.mem_cons_of_mem f hg)
    rw [List.foldl_cons, ih hrest]
    by_cases hb : truthyStr (tokenOf a) = true
    · cases hc : fetch ((tokenOf a).getD "") with
      | none => simp [refreshStep, accOf, ha, hb, hc]
      | some d => simp [refreshStep, accOf, ha, hb, hc]
    · have hb' : truthyStr (tokenOf a) = false := by simpa using hb
      simp [refreshStep, accOf, ha, hb']

theorem foldl_refreshStep_tree (fetch : String → Option SubData) :
    ∀ (files : List FileEntry), (∀ f ∈ files, f.2.isSome = true) → ∀ (st : RefreshState),
      (files.foldl (refreshStep fetch) st).tree = st.tree ++ files.map (rowOf fetch) := by
  intro files
  induction files with
  | nil => intro _ st; simp
  | cons f rest ih =>
    intro h st
    rcases Option.isSome_iff_exists.mp (h f (List.mem_cons_self f rest)) with ⟨a, ha⟩
    have hrest : ∀ g ∈ rest, g.2.isSome = true := fun g hg => h g (List.mem_cons_of_mem f hg)
    rw [List.foldl_cons, ih hrest]
    by_cases hb : truthyStr (tokenOf a) = true
    · cases hc : fetch ((tokenOf a).getD "") with
      | none => simp [refreshStep, rowOf, ha, hb, hc]
      | some d => simp [refreshStep, rowOf, ha, hb, hc]
    · have hb' : truthyStr (tokenOf a) = false := by simpa using hb
      simp [refreshStep, rowOf, ha, hb']

theorem foldl_refreshStep_failed (fetch : String → Option SubData) :
    ∀ (files : List FileEntry), (∀ f ∈ files, f.2.isSome = true) → ∀ (st : RefreshState),
      (files.foldl (refreshStep fetch) st).failed
        = st.failed ++ failedIdxFrom fetch st.tree.length files := by
  intro files
  induction files with
  | nil => intro _ st; simp [failedIdxFrom]
  | cons f rest ih =>
    intro h st
    rcases Option.isSome_iff_exists.mp (h f (List.mem_cons_self f rest)) with ⟨a, ha⟩
    have hrest : ∀ g ∈ rest, g.2.isSome = true := fun g hg => h g (List.mem_cons_of_mem f hg)
    rw [List.foldl_cons, ih hrest, refreshStep_tree_length_parseable fetch st f a ha]
    by_cases hb : truthyStr (tokenOf a) = true
    · cases hc : fetch ((tokenOf a).getD "") with
      | none => simp [refreshStep, failedIdxFrom, isFailF, ha, hb, hc]
      | some d => simp [refreshStep, failedIdxFrom, isFailF, ha, hb, hc]
    · have hb' : truthyStr (tokenOf a) = false := by simpa using hb
      simp [refreshStep, failedIdxFrom, isFailF, ha, hb']

theorem foldl_refreshStep_processed (fetch : String → Option SubData) :
    ∀ (files : List FileEntry), (∀ f ∈ files, f.2.isSome = true) → ∀ (st : RefreshState),
      (files.foldl (refreshStep fetch) st).processed
        = st.processed + files.countP (isSuccF fetch) := by
  intro files
  induction files with
  | nil => intro _ st; simp
  | cons f rest ih =>
    intro h st
    rcases Option.isSome_iff_exists.mp (h f (List.mem_cons_self f rest)) with ⟨a, ha⟩
    have hrest : ∀ g ∈ rest, g.2.isSome = true := fun g hg => h g (List.mem_cons_of_mem f hg)
    rw [List.foldl_cons, ih hrest]
    by_cases hb : truthyStr (tokenOf a) = true
    · cases hc : fetch ((tokenOf a).getD "") with
      | none => simp [refreshStep, isSuccF, ha, hb, hc, List.countP_cons]
      | some d =>
        simp only [refreshStep, ha, hb, hc, List.countP_cons, isSuccF, if_true]
        simp [Nat.add_assoc, Nat.add_comm 1]
    · have hb' : truthyStr (tokenOf a) = false := by simpa using hb
      simp [refreshStep, isSuccF, ha, hb', List.countP_cons]

theorem foldl_refreshStep_fetched (fetch : String → Option SubData) :
    ∀ (files : List FileEntry), (∀ f ∈ files, f.2.isSome = true) → ∀ (st : RefreshState),
      (files.foldl (refreshStep fetch) st).fetched
        = st.fetched ++ files.filterMap fetchTokOf := by
  intro files
  induction files with
  | nil => intro _ st; simp
  | cons f rest ih =>
    intro h st
    rcases Option.isSome_iff_exists.mp (h f (List.mem_cons_self f rest)) with ⟨a, ha⟩
    have hrest : ∀ g ∈ rest, g.2.isSome = true := fun g hg => h g (List.mem_cons_of_mem f hg)
    rw [List.foldl_cons, ih hrest]
    by_cases hb : truthyStr (tokenOf a) = true
    · cases hc : fetch ((tokenOf a).getD "") with
      | none => simp [refreshStep, fetchTokOf, ha, hb, hc]
      | some d => simp [refreshStep, fetchTokOf, ha, hb, hc]
    · have hb' : truthyStr (tokenOf a) = false := by simpa using hb
      simp [refreshStep, fetchTokOf, ha, hb']

theorem foldl_refreshStep_lastParsed (fetch : String → Option SubData) :
    ∀ (files : List FileEntry), (∀ f ∈ files, f.2.isSome = true) → ∀ (st : RefreshState),
      (files.foldl (refreshStep fetch) st).lastParsed
        = files.foldl (fun _ f => some (accOf fetch f)) st.lastParsed := by
  intro files
  induction files with
  | nil => intro _ st; simp
  | cons f rest ih =>
    intro h st
    rcases Option.isSome_iff_exists.mp (h f (List.mem_cons_self f rest)) with ⟨a, ha⟩
    have hrest : ∀ g ∈ rest, g.2.isSome = true := fun g hg => h g (List.mem_cons_of_mem f hg)
    rw [List.foldl_cons, ih hrest, List.foldl_cons]
    by_cases hb : truthyStr (tokenOf a) = true
    · cases hc : fetch ((tokenOf a).getD "") with
      | none => simp [refreshStep, accOf, ha, hb, hc]
      | some d => simp [refreshStep, accOf, ha, hb, hc]
    · have hb' : truthyStr (tokenOf a) = false := by simpa using hb
      simp [refreshStep, accOf, ha, hb']

theorem foldl_refreshStep_outFiles (fetch : String → Option SubData) :
    ∀ (files : List FileEntry), (∀ f ∈ files, f.2.isSome = true) → ∀ (st : RefreshState),
      (files.foldl (refreshStep fetch) st).outFiles
        = st.outFiles ++ files.map (newFileOf fetch) := by
  intro files
  induction files with
  | nil => intro _ st; simp
  | cons f rest ih =>
    intro h st
    rcases Option.isSome_iff_exists.mp (h f (List.mem_cons_self f rest)) with ⟨a, ha⟩
    have hrest : ∀ g ∈ rest, g.2.isSome = true := fun g hg => h g (List.mem_cons_of_mem f hg)
    rw [List.foldl_cons, ih hrest]
    by_cases hb : truthyStr (tokenOf a) = true
    · cases hc : fetch ((tokenOf a).getD "") with
      | none => simp [refreshStep, newFileOf, ha, hb, hc]
      | some d =>
        simp only [refreshStep, ha, hb, hc, if_true]
        simp [newFileOf, ha, hb, hc]
    · have hb' : truthyStr (tokenOf a) = false := by simpa using hb
      simp [refreshStep, newFileOf, ha, hb']

theorem failedIdxFrom_length (fetch : String → Option SubData) :
    ∀ (files : List FileEntry) (k : Nat),
      (failedIdxFrom fetch k files).length = files.countP (isFailF fetch) := by
  intro files
  induction files with
  | nil => intro k; simp [failedIdxFrom]
  | cons f rest ih =>
    intro k
    by_cases hf : isFailF fetch f = true
    · simp only [failedIdxFrom, hf, if_true, List.countP_cons, List.length_append,
        List.length_singleton, ih]
      omega
    · have hf' : isFailF fetch f = false := by simpa using hf
      simp [failedIdxFrom, hf', List.countP_cons, ih]

theorem failedIdxFrom_mem_src (fetch : String → Option SubData) :
    ∀ (files : List FileEntry) (k j : Nat),
      j ∈ failedIdxFrom fetch k files →
      ∃ (i : Nat) (f : FileEntry), files[i]? = some f ∧ isFailF fetch f = true ∧ j = k + i := by
  intro files
  induction files with
  | nil => intro k j h; simp [failedIdxFrom] at h
  | cons f rest ih =>
    intro k j h
    simp only [failedIdxFrom, List.mem_append] at h
    rcases h with h | h
    · by_cases hf : isFailF fetch f = true
      · simp only [hf, if_true, List.mem_singleton] at h
        exact ⟨0, f, by simp, hf, by omega⟩
      · simp [hf] at h
    · rcases ih (k + 1) j h with ⟨i, g, hg, hfail, hj⟩
      exact ⟨i + 1, g, by simpa using hg, hfail, by omega⟩

theorem failedIdxFrom_mem_of (fetch : String → Option SubData) :
    ∀ (files : List FileEntry) (k i : Nat) (f : FileEntry),
      files[i]? = some f → isFailF fetch f = true → (k + i) ∈ failedIdxFrom fetch k files := by
  intro files
  induction files with
  | nil => intro k i f h _; simp at h
  | cons g rest ih =>
    intro k i f h hf
    cases i with
    | zero =>
      simp only [List.getElem?_cons_zero, Option.some.injEq] at h
      subst h
      simp [failedIdxFrom, hf]
    | succ n =>
      simp only [List.getElem?_cons_succ] at h
      have hmem := ih (k + 1) n f h hf
      have heq : k + (n + 1) = k + 1 + n := by omega
      rw [heq]
      simp only [failedIdxFrom, List.mem_append]
      exact Or.inr hmem

theorem failedIdxFrom_not_mem (fetch : String → Option SubData)
    (files : List FileEntry) (k i : Nat) (f : FileEntry)
    (h : files[i]? = some f) (hf : isFailF fetch f = false) :
    ¬ (k + i) ∈ failedIdxFrom fetch k files := by
  intro hmem
  rcases failedIdxFrom_mem_src fetch files k (k + i) hmem with ⟨i1, f1, h1, hfail, hj⟩
  have hi : i = i1 := by omega
  subst hi
  rw [h] at h1
  injection h1 with he
  subst he
  rw [hfail] at hf
  cases hf

theorem noTokF_isFailF (fetch : String → Option SubData) (f : FileEntry) :
    noTokF f = true → isFailF fetch f = true := by
  cases hf : f.2 with
  | none => simp [noTokF, hf]
  | some a =>
    simp only [noTokF, hf, isFailF, Bool.not_eq_eq_eq_not, Bool.not_true]
    intro h
    simp [h]

theorem updateAccount_membership (a : Account) (d : SubData) :
    (updateAccount a d).membership = some (format_subscription_type (some d)) := by
  unfold updateAccount
  by_cases h : strHasSub (pyLower (d.membershipType.getD "")) "trial" = true
  · simp only [h, if_true]
    cases hd : d.daysRemainingOnTrial with
    | none => rfl
    | some n =>
      by_cases hn : 0 < n
      · simp [hn]
      · simp [hn]
  · simp [h]

theorem foldl_lastParsed_getLast (fetch : String → Option SubData) :
    ∀ (l : List FileEntry) (lp : Option Account) (h : ¬ l = []),
      l.foldl (fun _ f => some (accOf fetch f)) lp = some (accOf fetch (l.getLast h)) := by
  intro l
  induction l with
  | nil => intro lp h; cases h rfl
  | cons f rest ih =>
    intro lp h
    by_cases hrest : rest = []
    · subst hrest
      rfl
    · rw [List.foldl_cons, ih _ hrest, List.getLast_cons hrest]

theorem worker_char (fetch : String → Option SubData) (files : List FileEntry)
    (hj : ∀ f ∈ files, strEndsWith f.1 ".json" = true)
    (hp : ∀ f ∈ files, f.2.isSome = true)
    (hne : ¬ files = []) :
    refresh_saved_accounts_worker fetch files
      = .ok ⟨files.map (accOf fetch), files.map (rowOf fetch), failedIdxFrom fetch 0 files,
             files.length, files.countP (isSuccF fetch), files.filterMap fetchTokOf,
             files.map (newFileOf fetch)⟩ := by
  have hfil : files.filter (fun f => strEndsWith f.1 ".json") = files :=
    List.filter_eq_self.mpr hj
  have hemp : files.isEmpty = false := by
    cases files with
    | nil => cases hne rfl
    | cons g l => rfl
  have h1 := foldl_refreshStep_refreshed fetch files hp initialRefreshState
  have h2 := foldl_refreshStep_tree fetch files hp initialRefreshState
  have h3 := foldl_refreshStep_failed fetch files hp initialRefreshState
  have h4 := foldl_refreshStep_processed fetch files hp initialRefreshState
  have h5 := foldl_refreshStep_fetched fetch files hp initialRefreshState
  have h6 := foldl_refreshStep_outFiles fetch files hp initialRefreshState
  simp only [initialRefreshState, List.nil_append, List.length_nil, Nat.zero_add] at h1 h2 h3 h4 h5 h6
  unfold refresh_saved_accounts_worker
  simp [hfil, hemp, initialRefreshState, h1, h2, h3, h4, h5, h6]

/-- C2: the refresh report over N parseable saved records.  The total is N;
a record with no extractable token gets the "No Token Found" row and
in-memory membership, lands in the failed set, and contributes no remote
call (the calls made are exactly the extracted tokens of the token-bearing
records); a record whose fetch returns empty gets the "API Error - Auth
Failed" row and lands in the failed set; so the failed set has at least as
many entries as there are token-less records; and a record whose fetch
succeeds is rewritten to its file with membership updated to the formatted
subscription and is not in the failed set. -/
theorem refresh_report_flags_tokenless_and_api_failures :
    ∀ (fetch : String → Option SubData) (files : List FileEntry),
      (∀ f ∈ files, strEndsWith f.1 ".json" = true) →
      (∀ f ∈ files, f.2.isSome = true) →
      ¬ files = [] →
      (∀ t d, fetch t = some d → d.pyTruthy = true) →
      ∃ r : RefreshReport,
        refresh_saved_accounts_worker fetch files = Except.ok r
        ∧ r.total = files.length
        ∧ r.fetched = files.filterMap fetchTokOf
        ∧ files.countP noTokF ≤ r.failed_accounts.length
        ∧ (∀ (i : Nat) (f : FileEntry) (a : Account), files[i]? = some f → f.2 = some a →
            (truthyStr (tokenOf a) = false →
              r.tree_data[i]? = some (mkRow a "No Token Found" true)
              ∧ r.accounts[i]? = some { a with membership := some "No Token Found" }
              ∧ i ∈ r.failed_accounts)
            ∧ (truthyStr (tokenOf a) = true → fetch ((tokenOf a).getD "") = none →
              r.tree_data[i]? = some (mkRow a "API Error - Auth Failed" true)
              ∧ i ∈ r.failed_accounts)
            ∧ (∀ d, truthyStr (tokenOf a) = true → fetch ((tokenOf a).getD "") = some d →
              r.files_after[i]? = some (f.1, some (updateAccount a d))
              ∧ (updateAccount a d).membership = some (format_subscription_type (some d))
              ∧ ¬ i ∈ r.failed_accounts)) := by
  intro fetch files hj hp hne ht
  refine ⟨_, worker_char fetch files hj hp hne, rfl, rfl, ?_, ?_⟩
  · show files.countP noTokF ≤ (failedIdxFrom fetch 0 files).length
    rw [failedIdxFrom_length]
    exact List.countP_mono_left (fun f _ hnt => noTokF_isFailF fetch f hnt)
  · intro i f a hif hfa
    refine ⟨?_, ?_, ?_⟩
    · intro hb
      have hfail : isFailF fetch f = true := by simp [isFailF, hfa, hb]
      refine ⟨?_, ?_, ?_⟩
      · show (files.map (rowOf fetch))[i]? = some (mkRow a "No Token Found" true)
        rw [List.getElem?_map, hif]
        simp [rowOf, hfa, hb]
      · show (files.map (accOf fetch))[i]? = some { a with membership := some "No Token Found" }
        rw [List.getElem?_map, hif]
        simp [accOf, hfa, hb]
      · show i ∈ failedIdxFrom fetch 0 files
        simpa using failedIdxFrom_mem_of fetch files 0 i f hif hfail
    · intro hb hc
      have hfail : isFailF fetch f = true := by simp [isFailF, hfa, hb, hc]
      refine ⟨?_, ?_⟩
      · show (files.map (rowOf fetch))[i]? = some (mkRow a "API Error - Auth Failed" true)
        rw [List.getElem?_map, hif]
        simp [rowOf, hfa, hb, hc]
      · show i ∈ failedIdxFrom fetch 0 files
        simpa using failedIdxFrom_mem_of fetch files 0 i f hif hfail
    · intro d hb hc
      have hd : d.pyTruthy = true := ht _ d hc
      have hfail : isFailF fetch f = false := by simp [isFailF, hfa, hb, hc]
      refine ⟨?_, updateAccount_membership a d, ?_⟩
      · show (files.map (newFileOf fetch))[i]? = some (f.1, some (updateAccount a d))
        rw [List.getElem?_map, hif]
        simp [newFileOf, hfa, hb, hc, hd]
      · show ¬ i ∈ failedIdxFrom fetch 0 files
        simpa using failedIdxFrom_not_mem fetch files 0 i f hif hfail

/-- Witness for C2 over two records — one token-less, one whose token the
oracle answers: the report totals both and has a failed entry. -/
theorem refresh_report_flags_tokenless_and_api_failures_w :
    ∃ r : RefreshReport,
      refresh_saved_accounts_worker
        (fun t => if t = "tokgood" then some ⟨some "pro", some "active", none, none, false⟩ else none)
        [("a.json", some ⟨some "a@x", some "Auth_0", some "Pro", none, none,
            some "2024-01-02T03:04:05", ⟨none, none⟩⟩),
         ("b.json", some ⟨some "b@x", some "Auth_0", some "Free", none, none,
            some "2024", ⟨some "tokgood", none⟩⟩)] = Except.ok r
      ∧ r.total = 2 ∧ 1 ≤ r.failed_accounts.length := by
  obtain ⟨r, h1, h2, h3, h4, h5⟩ :=
    refresh_report_flags_tokenless_and_api_failures
      (fun t => if t = "tokgood" then some ⟨some "pro", some "active", none, none, false⟩ else none)
      [("a.json", some ⟨some "a@x", some "Auth_0", some "Pro", none, none,
          some "2024-01-02T03:04:05", ⟨none, none⟩⟩),
       ("b.json", some ⟨some "b@x", some "Auth_0", some "Free", none, none,
          some "2024", ⟨some "tokgood", none⟩⟩)]
      (by decide) (by decide) (by decide)
      (by
        intro t d h
        by_cases hx : t = "tokgood"
        · subst hx
          simp at h
          subst h
          decide
        · simp [hx] at h)
  refine ⟨r, h1, h2, ?_⟩
  have hcount : ([("a.json", some (⟨some "a@x", some "Auth_0", some "Pro", none, none,
      some "2024-01-02T03:04:05", ⟨none, none⟩⟩ : Account)),
    ("b.json", some ⟨some "b@x", some "Auth_0", some "Free", none, none,
      some "2024", ⟨some "tokgood", none⟩⟩)] : List FileEntry).countP noTokF = 1 := by decide
  rw [hcount] at h4
  exact h4

/-- C9: a record the refresh marks failed is never rewritten: when the
record has no token, or its remote fetch returns empty, its directory entry
after the call is exactly its entry before (and its index is flagged
failed, so the failure label lives only in the in-memory report); only a
record whose fetch succeeds has its file rewritten, with the updated
content. -/
theorem refresh_failed_records_keep_their_files :
    ∀ (fetch : String → Option SubData) (files : List FileEntry),
      (∀ f ∈ files, strEndsWith f.1 ".json" = true) →
      (∀ f ∈ files, f.2.isSome = true) →
      ¬ files = [] →
      ∃ r : RefreshReport,
        refresh_saved_accounts_worker fetch files = Except.ok r
        ∧ r.files_after.length = files.length
        ∧ (∀ (i : Nat) (f : FileEntry) (a : Account), files[i]? = some f → f.2 = some a →
            (truthyStr (tokenOf a) = false →
              r.files_after[i]? = some f ∧ i ∈ r.failed_accounts)
            ∧ (truthyStr (tokenOf a) = true → fetch ((tokenOf a).getD "") = none →
              r.files_after[i]? = some f ∧ i ∈ r.failed_accounts)
            ∧ (∀ d, truthyStr (tokenOf a) = true → fetch ((tokenOf a).getD "") = some d →
              r.files_after[i]? = some (f.1, some (if d.pyTruthy then updateAccount a d else a)))) := by
  intro fetch files hj hp hne
  refine ⟨_, worker_char fetch files hj hp hne, by simp, ?_⟩
  intro i f a hif hfa
  refine ⟨?_, ?_, ?_⟩
  · intro hb
    have hfail : isFailF fetch f = true := by simp [isFailF, hfa, hb]
    constructor
    · show (files.map (newFileOf fetch))[i]? = some f
      rw [List.getElem?_map, hif]
      simp [newFileOf, hfa, hb]
    · show i ∈ failedIdxFrom fetch 0 files
      simpa using failedIdxFrom_mem_of fetch files 0 i f hif hfail
  · intro hb hc
    have hfail : isFailF fetch f = true := by simp [isFailF, hfa, hb, hc]
    constructor
    · show (files.map (newFileOf fetch))[i]? = some f
      rw [List.getElem?_map, hif]
      simp [newFileOf, hfa, hb, hc]
    · show i ∈ failedIdxFrom fetch 0 files
      simpa using failedIdxFrom_mem_of fetch files 0 i f hif hfail
  · intro d hb hc
    show (files.map (newFileOf fetch))[i]? = some (f.1, some (if d.pyTruthy then updateAccount a d else a))
    rw [List.getElem?_map, hif]
    simp [newFileOf, hfa, hb, hc]

/-- Witness for C9: with an oracle that always fails, both the token-less
record's file and the token-bearing record's file are byte-for-byte
unchanged. -/
theorem refresh_failed_records_keep_their_files_w :
    ∃ r : RefreshReport,
      refresh_saved_accounts_worker (fun _ => none)
        [("a.json", some ⟨some "a@x", some "Auth_0", some "Pro", none, none,
            some "2024-01-02T03:04:05", ⟨none, none⟩⟩),
         ("b.json", some ⟨some "b@x", some "Auth_0", some "Free", none, none,
            some "2024", ⟨some "tokgood", none⟩⟩)] = Except.ok r
      ∧ r.files_after[0]? = some ("a.json", some ⟨some "a@x", some "Auth_0", some "Pro", none, none,
          some "2024-01-02T03:04:05", ⟨none, none⟩⟩)
      ∧ r.files_after[1]? = some ("b.json", some ⟨some "b@x", some "Auth_0", some "Free", none, none,
          some "2024", ⟨some "tokgood", none⟩⟩) := by
  obtain ⟨r, h1, _, h3⟩ :=
    refresh_failed_records_keep_their_files (fun _ => none)
      [("a.json", some ⟨some "a@x", some "Auth_0", some "Pro", none, none,
          some "2024-01-02T03:04:05", ⟨none, none⟩⟩),
       ("b.json", some ⟨some "b@x", some "Auth_0", some "Free", none, none,
          some "2024", ⟨some "tokgood", none⟩⟩)]
      (by decide) (by decide) (by decide)
  refine ⟨r, h1, ?_, ?_⟩
  · exact ((h3 0 _ _ rfl rfl).1 (by decide)).1
  · exact ((h3 1 _ _ rfl rfl).2.1 (by decide) rfl).1

theorem loadLoop_char :
    ∀ l : List FileEntry,
      loadLoop l
        = (l.filterMap (fun f => f.2),
           l.filterMap (fun f => f.2.map (fun a => mkRow a (a.membership.getD "Unknown") false)),
           l.filterMap (fun f => if f.2.isSome then none else some f.1)) := by
  intro l
  induction l with
  | nil => rfl
  | cons f rest ih =>
    cases hf : f.2 with
    | some a => simp [loadLoop, ih, hf, List.filterMap_cons]
    | none => simp [loadLoop, ih, hf, List.filterMap_cons]

/-- C7: a record file that fails to parse never aborts a bulk operation.
During list, the loader returns exactly the parseable records (in order)
together with their rows, and one logged warning per malformed file.
During refresh, a corrupt file in the middle of the batch does not halt the
remaining records: the report still covers every file, every record after
the corrupt one is processed normally, and — partial data being available
in memory from the preceding iterations — the corrupt file contributes a
row flagged failed (built from the last parsed record, whose data is what
the handler still has in scope) and its index joins the failed set, while
its own file is left unchanged. -/
theorem corrupt_record_skipped_not_fatal :
    (∀ files : List FileEntry,
      load_saved_accounts files
        = ((files.filter (fun f => strEndsWith f.1 ".json")).filterMap (fun f => f.2),
           (files.filter (fun f => strEndsWith f.1 ".json")).filterMap
             (fun f => f.2.map (fun a => mkRow a (a.membership.getD "Unknown") false)),
           (files.filter (fun f => strEndsWith f.1 ".json")).filterMap
             (fun f => if f.2.isSome then none else some f.1)))
    ∧ (∀ (fetch : String → Option SubData) (pre post : List FileEntry) (badName : String)
        (hpre : ¬ pre = []),
        (∀ f ∈ pre, strEndsWith f.1 ".json" = true) →
        (∀ f ∈ pre, f.2.isSome = true) →
        (∀ f ∈ post, strEndsWith f.1 ".json" = true) →
        (∀ f ∈ post, f.2.isSome = true) →
        strEndsWith badName ".json" = true →
        ∃ r : RefreshReport,
          refresh_saved_accounts_worker fetch (pre ++ (badName, none) :: post) = Except.ok r
          ∧ r.total = pre.length + 1 + post.length
          ∧ r.tree_data = pre.map (rowOf fetch)
              ++ mkRow (accOf fetch (pre.getLast hpre))
                   ((accOf fetch (pre.getLast hpre)).membership.getD "Refresh failed") true
                 :: post.map (rowOf fetch)
          ∧ pre.length ∈ r.failed_accounts
          ∧ r.processed = pre.countP (isSuccF fetch) + post.countP (isSuccF fetch)
          ∧ r.files_after = pre.map (newFileOf fetch)
              ++ (badName, none) :: post.map (newFileOf fetch)) := by
  constructor
  · intro files
    unfold load_saved_accounts
    exact loadLoop_char (files.filter (fun f => strEndsWith f.1 ".json"))
  · intro fetch pre post badName hpre hpj hpp hsj hsp hbj
    have hj : ∀ f ∈ pre ++ (badName, none) :: post, strEndsWith f.1 ".json" = true := by
      intro f hf
      rcases List.mem_append.mp hf with h | h
      · exact hpj f h
      · rcases List.mem_cons.mp h with h | h
        · rw [h]
          exact hbj
        · exact hsj f h
    have hfil : (pre ++ (badName, none) :: post).filter (fun f => strEndsWith f.1 ".json")
        = pre ++ (badName, none) :: post := List.filter_eq_self.mpr hj
    have hemp : (pre ++ (badName, none) :: post).isEmpty = false := by
      cases pre <;> rfl
    have hlast : (pre.foldl (refreshStep fetch) initialRefreshState).lastParsed
        = some (accOf fetch (pre.getLast hpre)) := by
      rw [foldl_refreshStep_lastParsed fetch pre hpp initialRefreshState]
      exact foldl_lastParsed_getLast fetch pre initialRefreshState.lastParsed hpre
    have hstep : refreshStep fetch (pre.foldl (refreshStep fetch) initialRefreshState) (badName, none)
        = { pre.foldl (refreshStep fetch) initialRefreshState with
            refreshed := (pre.foldl (refreshStep fetch) initialRefreshState).refreshed
              ++ [accOf fetch (pre.getLast hpre)],
            failed := (pre.foldl (refreshStep fetch) initialRefreshState).failed
              ++ [(pre.foldl (refreshStep fetch) initialRefreshState).tree.length],
            tree := (pre.foldl (refreshStep fetch) initialRefreshState).tree
              ++ [mkRow (accOf fetch (pre.getLast hpre))
                   ((accOf fetch (pre.getLast hpre)).membership.getD "Refresh failed") true],
            outFiles := (pre.foldl (refreshStep fetch) initialRefreshState).outFiles
              ++ [(badName, none)] } := by
      simp [refreshStep, hlast]
    have hw : refresh_saved_accounts_worker fetch (pre ++ (badName, none) :: post)
        = Except.ok
            ⟨pre.map (accOf fetch) ++ accOf fetch (pre.getLast hpre) :: post.map (accOf fetch),
             pre.map (rowOf fetch)
               ++ mkRow (accOf fetch (pre.getLast hpre))
                    ((accOf fetch (pre.getLast hpre)).membership.getD "Refresh failed") true
                  :: post.map (rowOf fetch),
             failedIdxFrom fetch 0 pre
               ++ pre.length :: failedIdxFrom fetch (pre.length + 1) post,
             (pre ++ (badName, none) :: post).length,
             pre.countP (isSuccF fetch) + post.countP (isSuccF fetch),
             pre.filterMap fetchTokOf ++ post.filterMap fetchTokOf,
             pre.map (newFileOf fetch) ++ (badName, none) :: post.map (newFileOf fetch)⟩ := by
      unfold refresh_saved_accounts_worker
      simp only [hfil, hemp, Bool.false_eq_true, if_false]
      simp only [List.foldl_append, List.foldl_cons, hstep]
      simp only [foldl_refreshStep_refreshed fetch post hsp,
                 foldl_refreshStep_tree fetch post hsp,
                 foldl_refreshStep_failed fetch post hsp,
                 foldl_refreshStep_processed fetch post hsp,
                 foldl_refreshStep_fetched fetch post hsp,
                 foldl_refreshStep_outFiles fetch post hsp]
      simp only [foldl_refreshStep_refreshed fetch pre hpp,
                 foldl_refreshStep_tree fetch pre hpp,
                 foldl_refreshStep_failed fetch pre hpp,
                 foldl_refreshStep_processed fetch pre hpp,
                 foldl_refreshStep_fetched fetch pre hpp,
                 foldl_refreshStep_outFiles fetch pre hpp]
      simp [initialRefreshState, List.append_assoc, List.length_append, List.length_map]
    refine ⟨_, hw, ?_, rfl, ?_, rfl, rfl⟩
    · show (pre ++ (badName, none) :: post).length = pre.length + 1 + post.length
      simp [List.length_append]
      omega
    · show pre.length ∈ failedIdxFrom fetch 0 pre
        ++ pre.length :: failedIdxFrom fetch (pre.length + 1) post
      exact List.mem_append_right _ (List.mem_cons_self _ _)

/-- Witness for C7: a parseable record followed by a corrupt file — the
loader lists the parseable one and warns about the other, and the refresh
still reports both files with the corrupt one flagged failed. -/
theorem corrupt_record_skipped_not_fatal_w :
    load_saved_accounts
        [("ok.json", some ⟨some "w@x", some "Auth_0", some "Pro", none, none, some "2024", ⟨none, none⟩⟩),
         ("bad.json", none)]
      = ([⟨some "w@x", some "Auth_0", some "Pro", none, none, some "2024", ⟨none, none⟩⟩],
         [mkRow ⟨some "w@x", some "Auth_0", some "Pro", none, none, some "2024", ⟨none, none⟩⟩ "Pro" false],
         ["bad.json"])
    ∧ ∃ r : RefreshReport,
        refresh_saved_accounts_worker (fun _ => none)
          ([("x.json", some ⟨some "w@x", some "Auth_0", some "Pro", none, none, some "2024", ⟨none, none⟩⟩)]
            ++ ("bad.json", none) :: []) = Except.ok r
        ∧ r.total = 2 ∧ 1 ∈ r.failed_accounts := by
  constructor
  · rw [corrupt_record_skipped_not_fatal.1]
    rfl
  · obtain ⟨r, h1, h2, h3, h4, h5, h6⟩ :=
      corrupt_record_skipped_not_fatal.2 (fun _ => none)
        [("x.json", some ⟨some "w@x", some "Auth_0", some "Pro", none, none, some "2024", ⟨none, none⟩⟩)]
        [] "bad.json" (by decide) (by decide) (by decide) (by decide) (by decide) (by decide)
    exact ⟨r, h1, h2, by simpa using h4⟩
